import Mathlib

/-!
Verification of the turn-orchestration engine of ragops-agent-ce
(src/ragops_agent_ce/agent/agent.py): the blocking controller `respond`,
the streaming controller `respond_stream`, tool lookup/dispatch and the
argument/result marshalling helpers of class `LLMAgent`.

Python values, external library calls (`json.loads`, `json.dumps`, `str`)
and the injected provider are modelled explicitly; provider statefulness
is threaded as an explicit state parameter of type `σ`.
-/

namespace RagOps

/-- A Python value, as far as the agent code inspects one: JSON-like data
plus `obj`, an opaque non-JSON-serializable object carrying only its
string representation. -/
inductive PyVal where
  | none : PyVal
  | bool : Bool → PyVal
  | int : Int → PyVal
  | str : String → PyVal
  | list : List PyVal → PyVal
  | dict : List (String × PyVal) → PyVal
  | obj : String → PyVal


/-- The raw `arguments` payload of a tool call: the source treats it as
"dict or JSON string or None" (`LLMAgent._parse_tool_args`). -/
inductive RawArguments where
  | dict : List (String × PyVal) → RawArguments
  | str : String → RawArguments
  | none : RawArguments


/-- Modelled from the spec data model: `ToolCall` is
`{id, function: {name, arguments}}` (llm/types.py is not part of the
sources; the shape is fixed by the spec and by every access in agent.py). -/
structure ToolFunctionCall where
  name : String
  arguments : RawArguments


structure ToolCall where
  id : String
  function : ToolFunctionCall


/-- Modelled from the spec data model: a chat `Message`
`{role, content, name, tool_call_id, tool_calls}`. -/
structure Message where
  role : String
  content : Option String
  name : Option String
  tool_call_id : Option String
  tool_calls : Option (List ToolCall)


/-- Modelled from the spec data model: the tool declaration sent to the
provider (`ToolSpec` with a `function` record). -/
structure ToolFunction where
  name : String
  description : String
  parameters : PyVal


structure ToolSpec where
  function : ToolFunction


/-- From agent/tools.py: a local tool. The handler may raise (`Except.error`
carries the Python exception message) and may return any Python value. -/
structure AgentTool where
  name : String
  description : String
  parameters : PyVal
  handler : PyVal → Except String PyVal

/-- The remote tool metadata dict `{name, description, parameters}`
discovered from an MCP client (`LLMAgent.__init__`). -/
structure MCPToolInfo where
  name : String
  description : String
  parameters : PyVal

/-- An MCP client as the agent uses it: `call_tool(name, args)` may raise. -/
structure MCPClient where
  call_tool : String → PyVal → Except String PyVal

/-- Modelled from the spec external interface: a provider response
`{content: string|null, toolCalls: ToolCall[]|null}`. Streaming chunks
expose the same two fields (`chunk.content`, `chunk.tool_calls`). -/
structure LLMResponse where
  content : Option String
  tool_calls : Option (List ToolCall)


/-- The injected provider. Python providers are stateful opaque objects;
the model threads their hidden state `σ` explicitly: `generate` and
`generate_stream` consume a state and return the next one. A streamed
response is the list of chunks the provider will deliver. -/
structure Provider (σ : Type) where
  supports_tools : Bool
  supports_streaming : Bool
  generate : σ → List Message → Option (List ToolSpec) → Option String → LLMResponse × σ
  generate_stream : σ → List Message → Option (List ToolSpec) → Option String → List LLMResponse × σ

/-- External Python runtime primitives used by agent.py, abstracted:
`json.loads` (raising modelled as `Option.none`), `json.dumps` (raising
modelled as `Option.none`) and `str`. -/
structure PyRuntime where
  json_loads : String → Option PyVal
  json_dumps : PyVal → Option String
  py_str : PyVal → String

/-- The `StreamEvent` dataclass of agent.py: `type` is one of
"content" | "tool_call_start" | "tool_call_end" | "tool_call_error". -/
structure StreamEvent where
  type : String
  content : Option String
  tool_name : Option String
  tool_args : Option PyVal
  error : Option String


/-- Event `StreamEvent(type="content", content=c)`. -/
def contentEvent (c : String) : StreamEvent :=
  { type := "content", content := some c, tool_name := Option.none,
    tool_args := Option.none, error := Option.none }

/-- Event `StreamEvent(type="tool_call_start", tool_name=..., tool_args=...)`. -/
def toolCallStartEvent (nm : String) (args : PyVal) : StreamEvent :=
  { type := "tool_call_start", content := Option.none, tool_name := some nm,
    tool_args := some args, error := Option.none }

/-- Event `StreamEvent(type="tool_call_end", tool_name=...)`. -/
def toolCallEndEvent (nm : String) : StreamEvent :=
  { type := "tool_call_end", content := Option.none, tool_name := some nm,
    tool_args := Option.none, error := Option.none }

/-- Event `StreamEvent(type="tool_call_error", tool_name=..., error=...)`. -/
def toolCallErrorEvent (nm : String) (e : String) : StreamEvent :=
  { type := "tool_call_error", content := Option.none, tool_name := some nm,
    tool_args := Option.none, error := some e }

/-- Python truthiness of an optional string: `None` and `""` are falsy. -/
def truthyStr : Option String → Bool
  | Option.none => false
  | some s => !(s == "")

/-- Python truthiness of an optional list: `None` and `[]` are falsy. -/
def truthyCalls : Option (List ToolCall) → Bool
  | Option.none => false
  | some l => !l.isEmpty

/-- Python `x or ""` for `x : str | None`. -/
def orEmpty : Option String → String
  | Option.none => ""
  | some s => s

/-- The `LLMAgent` after construction: provider, local tools, the
`mcp_tools` dict (name -> (tool info, client), insertion-ordered), the
iteration bound, and the ambient Python runtime primitives. -/
structure LLMAgent (σ : Type) where
  runtime : PyRuntime
  provider : Provider σ
  local_tools : List AgentTool
  mcp_tools : List (String × MCPToolInfo × MCPClient)
  max_iterations : Nat

namespace LLMAgent

variable {σ : Type}

/-- Model of `LLMAgent._tool_specs`: local tool specs first, then MCP tool
metadata reshaped into the same spec shape, in registration order. -/
def tool_specs (A : LLMAgent σ) : List ToolSpec :=
  A.local_tools.map (fun t => { function := { name := t.name, description := t.description, parameters := t.parameters } })
    ++ A.mcp_tools.map (fun x => { function := { name := x.2.1.name, description := x.2.1.description, parameters := x.2.1.parameters } })

/-- Model of `LLMAgent._find_tool`: first local tool with a matching name; else
the `mcp_tools` dict entry for the name; else nothing. -/
def find_tool (A : LLMAgent σ) (nm : String) :
    Option AgentTool × Option (MCPToolInfo × MCPClient) :=
  match A.local_tools.find? (fun t => t.name == nm) with
  | some t => (some t, Option.none)
  | Option.none =>
    match (A.mcp_tools.find? (fun x => x.1 == nm)) with
    | some x => (Option.none, some x.2)
    | Option.none => (Option.none, Option.none)

/-- Model of `LLMAgent._should_execute_tools`:
`bool(self.provider.supports_tools() and resp.tool_calls)`. -/
def should_execute_tools (A : LLMAgent σ) (resp : LLMResponse) : Bool :=
  A.provider.supports_tools && truthyCalls resp.tool_calls

/-- Model of `LLMAgent._parse_tool_args`: return a dict payload as-is; otherwise
`json.loads(raw or "\x7b\x7d")`, with any exception caught and turned
into the empty dict. A `None` or empty-string payload therefore parses
the literal text of an empty JSON object. -/
def parse_tool_args (A : LLMAgent σ) (tc : ToolCall) : PyVal :=
  match tc.function.arguments with
  | RawArguments.dict kvs => PyVal.dict kvs
  | RawArguments.str s =>
    match A.runtime.json_loads (if s == "" then "\x7b\x7d" else s) with
    | some v => v
    | Option.none => PyVal.dict []
  | RawArguments.none =>
    match A.runtime.json_loads "\x7b\x7d" with
    | some v => v
    | Option.none => PyVal.dict []

/-- Model of `LLMAgent._serialize_tool_result`: a string result is returned
unchanged; otherwise `json.dumps`, falling back to `str(result)` when
serialization raises. -/
def serialize_tool_result (A : LLMAgent σ) (result : PyVal) : String :=
  match result with
  | PyVal.str s => s
  | r =>
    match A.runtime.json_dumps r with
    | some j => j
    | Option.none => A.runtime.py_str r

/-- Model of `LLMAgent._execute_tool_call`: resolve the name; an unknown name
returns `""`; a local handler or MCP call that raises re-raises
(`Except.error`); a successful result is serialized to a string. -/
def execute_tool_call (A : LLMAgent σ) (tc : ToolCall) (args : PyVal) :
    Except String String :=
  match A.find_tool tc.function.name with
  | (Option.none, Option.none) => Except.ok ""
  | (some t, _) =>
    match t.handler args with
    | Except.ok r => Except.ok (A.serialize_tool_result r)
    | Except.error e => Except.error e
  | (Option.none, some x) =>
    match x.2.call_tool x.1.name args with
    | Except.ok r => Except.ok (A.serialize_tool_result r)
    | Except.error e => Except.error e

/-- The parse-then-execute pipeline applied to one tool call, exactly as
both controllers do it. -/
def tool_exec_result (A : LLMAgent σ) (tc : ToolCall) : Except String String :=
  A.execute_tool_call tc (A.parse_tool_args tc)

/-- Model of `LLMAgent._append_synthetic_assistant_turn`: one assistant message
with `content=None` carrying the tool calls. -/
def synthetic_assistant_message (tcs : List ToolCall) : Message :=
  { role := "assistant", content := Option.none, name := Option.none,
    tool_call_id := Option.none, tool_calls := some tcs }

/-- The `role="tool"` result message appended after executing `tc`. -/
def tool_message (tc : ToolCall) (content : String) : Message :=
  { role := "tool", content := some content, name := some tc.function.name,
    tool_call_id := some tc.id, tool_calls := Option.none }

/-- The per-call loop of `LLMAgent._handle_tool_calls`: parse, execute,
append one tool message per call; a raised handler exception stops the
loop and propagates (`some e`), leaving the messages appended so far. -/
def append_tool_results (A : LLMAgent σ) :
    List Message → List ToolCall → List Message × Option String
  | ms, [] => (ms, Option.none)
  | ms, tc :: rest =>
    match A.execute_tool_call tc (A.parse_tool_args tc) with
    | Except.ok r => A.append_tool_results (ms ++ [tool_message tc r]) rest
    | Except.error e => (ms, some e)

/-- Model of `LLMAgent._handle_tool_calls`: append the synthetic assistant turn,
then execute each call in order, appending its result message. -/
def handle_tool_calls (A : LLMAgent σ) (ms : List Message) (tcs : List ToolCall) :
    List Message × Option String :=
  A.append_tool_results (ms ++ [synthetic_assistant_message tcs]) tcs

/-- The tool list computed at the top of `respond`/`respond_stream`:
`self._tool_specs() if self.provider.supports_tools() else None`. -/
def declared_tools (A : LLMAgent σ) : Option (List ToolSpec) :=
  if A.provider.supports_tools then some A.tool_specs else Option.none

/-- The `for _ in range(self.max_iterations)` loop of `LLMAgent.respond`,
with the remaining iteration count as fuel. Returns the final message
list, the final provider state, and either the returned content or a
propagated tool exception. -/
def respond_loop (A : LLMAgent σ) (tools : Option (List ToolSpec))
    (model : Option String) :
    Nat → σ → List Message → List Message × σ × Except String String
  | 0, s, ms => (ms, s, Except.ok "")
  | Nat.succ n, s, ms =>
    let g := A.provider.generate s ms tools model
    if A.should_execute_tools g.1 then
      match A.handle_tool_calls ms (g.1.tool_calls.getD []) with
      | (ms1, Option.none) => A.respond_loop tools model n g.2 ms1
      | (ms1, some e) => (ms1, g.2, Except.error e)
    else
      if truthyStr g.1.content then
        (ms, g.2, Except.ok (orEmpty g.1.content))
      else
        let retry := A.provider.generate g.2 ms Option.none model
        (ms, retry.2, Except.ok (orEmpty retry.1.content))

/-- Model of `LLMAgent.respond`: one blocking assistant turn over the given
history, threading the provider state explicitly. -/
def respond (A : LLMAgent σ) (s : σ) (ms : List Message) (model : Option String) :
    List Message × σ × Except String String :=
  A.respond_loop A.declared_tools model A.max_iterations s ms

/-- The streaming treatment of one tool call (`respond_stream` body):
emit `tool_call_start`, execute; on success append the result message and
emit `tool_call_end`; on a raised exception append an
`"Error: <message>"` tool message and emit `tool_call_error`. -/
def process_stream_tool_call (A : LLMAgent σ) (ms : List Message) (tc : ToolCall) :
    List StreamEvent × List Message :=
  let args := A.parse_tool_args tc
  match A.execute_tool_call tc args with
  | Except.ok r =>
    ([toolCallStartEvent tc.function.name args, toolCallEndEvent tc.function.name],
      ms ++ [tool_message tc r])
  | Except.error e =>
    ([toolCallStartEvent tc.function.name args, toolCallErrorEvent tc.function.name e],
      ms ++ [tool_message tc ("Error: " ++ e)])

/-- The `for tc in chunk.tool_calls` loop of `respond_stream`. -/
def process_stream_tool_calls (A : LLMAgent σ) :
    List Message → List ToolCall → List StreamEvent × List Message
  | ms, [] => ([], ms)
  | ms, tc :: rest =>
    let step := A.process_stream_tool_call ms tc
    let tail := A.process_stream_tool_calls step.2 rest
    (step.1 ++ tail.1, tail.2)

/-- The `for chunk in ...generate_stream(...)` loop of `respond_stream`:
emit a content event for a truthy chunk content; on the first chunk whose
tool calls are truthy (and the provider supports tools) append the
synthetic assistant turn, process every call of that chunk, and break,
abandoning the remaining chunks. The boolean reports whether the break
was taken (Python for-else). -/
def process_chunks (A : LLMAgent σ) :
    List Message → List LLMResponse → List StreamEvent × List Message × Bool
  | ms, [] => ([], ms, false)
  | ms, ch :: rest =>
    let evs := if truthyStr ch.content then [contentEvent (orEmpty ch.content)] else []
    if truthyCalls ch.tool_calls && A.provider.supports_tools then
      let tcs := ch.tool_calls.getD []
      let done := A.process_stream_tool_calls (ms ++ [synthetic_assistant_message tcs]) tcs
      (evs ++ done.1, done.2, true)
    else
      let tail := A.process_chunks ms rest
      (evs ++ tail.1, tail.2.1, tail.2.2)

/-- The outer `for _ in range(self.max_iterations)` loop of
`respond_stream` in the streaming-capable case. -/
def stream_loop (A : LLMAgent σ) (tools : Option (List ToolSpec))
    (model : Option String) :
    Nat → σ → List Message → List StreamEvent × List Message × σ
  | 0, s, ms => ([], ms, s)
  | Nat.succ n, s, ms =>
    let g := A.provider.generate_stream s ms tools model
    let done := A.process_chunks ms g.1
    if done.2.2 then
      let tail := A.stream_loop tools model n g.2 done.2.1
      (done.1 ++ tail.1, tail.2)
    else
      (done.1, done.2.1, g.2)

/-- Model of `LLMAgent.respond_stream`: when the provider does not support
streaming, a single synthetic content event wrapping a full `respond`
run (a `respond` exception propagates before anything is yielded);
otherwise the chunked streaming loop, which never raises. -/
def respond_stream (A : LLMAgent σ) (s : σ) (ms : List Message)
    (model : Option String) :
    List StreamEvent × List Message × σ × Except String Unit :=
  if A.provider.supports_streaming then
    let r := A.stream_loop A.declared_tools model A.max_iterations s ms
    (r.1, r.2.1, r.2.2, Except.ok ())
  else
    match A.respond s ms model with
    | (ms1, s1, Except.ok c) => ([contentEvent c], ms1, s1, Except.ok ())
    | (ms1, s1, Except.error e) => ([], ms1, s1, Except.error e)

end LLMAgent

/-- The string stored in a blocking-mode tool-result message for `tc`
(the serialized result; unreachable default for the raising case, which
the blocking path propagates instead of storing). -/
def LLMAgent.blocking_result {σ : Type} (A : LLMAgent σ) (tc : ToolCall) : String :=
  (A.tool_exec_result tc).toOption.getD ""

/-- The string stored in a streaming-mode tool-result message for `tc`:
the serialized result on success, `"Error: <message>"` on a raised
handler exception. -/
def LLMAgent.stream_result {σ : Type} (A : LLMAgent σ) (tc : ToolCall) : String :=
  match A.tool_exec_result tc with
  | Except.ok r => r
  | Except.error e => "Error: " ++ e

/-- A consistent (appendable) block structure for the messages a
controller appends during one turn: a sequence of blocks, each one
synthetic assistant tool-call message immediately followed by exactly one
`role=tool` result message per tool call, in call order, with matching
`tool_call_id` and `name` (built into `tool_message`). -/
inductive BalancedBlocks : List Message → Prop where
  | nil : BalancedBlocks []
  | block (tcs : List ToolCall) (f : ToolCall → String) (rest : List Message) :
      BalancedBlocks rest →
      BalancedBlocks (LLMAgent.synthetic_assistant_message tcs ::
        (tcs.map (fun tc => LLMAgent.tool_message tc (f tc)) ++ rest))

/-! ### Concrete instances used to evaluate the model on closed inputs -/

/-- A concrete Python runtime: `json.loads` knows the empty JSON object
and the literal `42`, and fails on everything else (in particular on
`"not valid json"`); `json.dumps` succeeds exactly on integers;
`str` falls back to a fixed rendering for containers. -/
def witRuntime : PyRuntime :=
  { json_loads := fun s =>
      if s == "\x7b\x7d" then some (PyVal.dict [])
      else if s == "42" then some (PyVal.int 42)
      else Option.none
  , json_dumps := fun v =>
      match v with
      | PyVal.int n => some (toString n)
      | _ => Option.none
  , py_str := fun v =>
      match v with
      | PyVal.str s => s
      | PyVal.obj r => r
      | _ => "<value>" }

/-- A registered no-op tool: accepts anything, returns `""`. -/
def noopTool : AgentTool :=
  { name := "noop", description := "does nothing",
    parameters := PyVal.dict [], handler := fun _ => Except.ok (PyVal.str "") }

/-- A registered tool whose handler always raises. -/
def boomTool : AgentTool :=
  { name := "boom", description := "always raises",
    parameters := PyVal.dict [], handler := fun _ => Except.error "boom failed" }

def noopCall : ToolCall :=
  { id := "call-1", function := { name := "noop", arguments := RawArguments.none } }

def boomCall : ToolCall :=
  { id := "call-2", function := { name := "boom", arguments := RawArguments.none } }

/-- A tool call naming a tool that is neither local nor discovered. -/
def ghostCall : ToolCall :=
  { id := "call-3", function := { name := "ghost", arguments := RawArguments.none } }

def userMsg : Message :=
  { role := "user", content := some "hi", name := Option.none,
    tool_call_id := Option.none, tool_calls := Option.none }

def hist0 : List Message := [userMsg]

/-- A provider (state = number of `generate` calls made so far) that
always requests the no-op tool. -/
def alwaysToolProvider : Provider Nat :=
  { supports_tools := true, supports_streaming := false
  , generate := fun s _ _ _ =>
      ({ content := Option.none, tool_calls := some [noopCall] }, s + 1)
  , generate_stream := fun s _ _ _ => ([], s) }

/-- A provider that always requests the raising tool. -/
def boomProvider : Provider Nat :=
  { supports_tools := true, supports_streaming := false
  , generate := fun s _ _ _ =>
      ({ content := Option.none, tool_calls := some [boomCall] }, s + 1)
  , generate_stream := fun s _ _ _ => ([], s) }

/-- A provider scripted to call the unknown tool `"ghost"` on its first
`generate` call and to answer `"recovered"` on the second. -/
def ghostProvider : Provider Nat :=
  { supports_tools := true, supports_streaming := false
  , generate := fun s _ _ _ =>
      if s == 0 then ({ content := Option.none, tool_calls := some [ghostCall] }, s + 1)
      else ({ content := some "recovered", tool_calls := Option.none }, s + 1)
  , generate_stream := fun s _ _ _ => ([], s) }

/-- A provider returning empty content and no tool calls first, then
`"after retry"`. -/
def emptyThenProvider : Provider Nat :=
  { supports_tools := false, supports_streaming := false
  , generate := fun s _ _ _ =>
      if s == 0 then ({ content := some "", tool_calls := Option.none }, s + 1)
      else ({ content := some "after retry", tool_calls := Option.none }, s + 1)
  , generate_stream := fun s _ _ _ => ([], s) }

/-- A non-streaming, non-tool provider that answers `"hello"`. -/
def plainProvider : Provider Nat :=
  { supports_tools := false, supports_streaming := false
  , generate := fun s _ _ _ =>
      ({ content := some "hello", tool_calls := Option.none }, s + 1)
  , generate_stream := fun s _ _ _ => ([], s) }

/-- A streaming-capable provider: the first stream carries a no-op tool
call, the second closes the turn with content. -/
def streamProvider : Provider Nat :=
  { supports_tools := true, supports_streaming := true
  , generate := fun s _ _ _ =>
      ({ content := some "done", tool_calls := Option.none }, s + 1)
  , generate_stream := fun s _ _ _ =>
      if s == 0 then ([{ content := Option.none, tool_calls := some [noopCall] }], s + 1)
      else ([{ content := some "fin", tool_calls := Option.none }], s + 1) }

def mkAgent (p : Provider Nat) (tools : List AgentTool) (maxIt : Nat) : LLMAgent Nat :=
  { runtime := witRuntime, provider := p, local_tools := tools,
    mcp_tools := [], max_iterations := maxIt }

def wit2Agent : LLMAgent Nat := mkAgent alwaysToolProvider [noopTool] 3

def boomAgent : LLMAgent Nat := mkAgent boomProvider [boomTool] 1

def ghostAgent : LLMAgent Nat := mkAgent ghostProvider [noopTool] 2

def emptyThenAgent : LLMAgent Nat := mkAgent emptyThenProvider [] 1

def plainAgent : LLMAgent Nat := mkAgent plainProvider [] 1

def streamAgent : LLMAgent Nat := mkAgent streamProvider [noopTool] 2

def witAgent : LLMAgent Nat := mkAgent plainProvider [noopTool] 1

/-! ### Helper lemmas about the two controllers -/

namespace LLMAgent

variable {σ : Type}

/-- When no handler raises, the per-call loop appends exactly one result
message per call, in call order. -/
theorem append_tool_results_eq_of_ok (A : LLMAgent σ) :
    ∀ (tcs : List ToolCall) (ms : List Message),
      (A.append_tool_results ms tcs).2 = Option.none →
      (A.append_tool_results ms tcs).1
        = ms ++ tcs.map (fun tc => tool_message tc (A.blocking_result tc)) := by
  intro tcs
  induction tcs with
  | nil => intro ms _; simp [append_tool_results]
  | cons tc rest ih =>
    intro ms h
    cases hex : A.execute_tool_call tc (A.parse_tool_args tc) with
    | ok r =>
      have h2 : (A.append_tool_results (ms ++ [tool_message tc r]) rest).2 = Option.none := by
        simpa [append_tool_results, hex] using h
      have h3 := ih (ms ++ [tool_message tc r]) h2
      simp [append_tool_results, hex, h3, blocking_result, tool_exec_result,
        Except.toOption, List.append_assoc]
    | error e =>
      exfalso
      simp [append_tool_results, hex] at h

/-- The per-call loop only appends to the message list. -/
theorem append_tool_results_append (A : LLMAgent σ) :
    ∀ (tcs : List ToolCall) (ms : List Message),
      ∃ t, (A.append_tool_results ms tcs).1 = ms ++ t := by
  intro tcs
  induction tcs with
  | nil => intro ms; exact ⟨[], by simp [append_tool_results]⟩
  | cons tc rest ih =>
    intro ms
    cases hex : A.execute_tool_call tc (A.parse_tool_args tc) with
    | ok r =>
      obtain ⟨t, ht⟩ := ih (ms ++ [tool_message tc r])
      exact ⟨[tool_message tc r] ++ t, by simp [append_tool_results, hex, ht]⟩
    | error e => exact ⟨[], by simp [append_tool_results, hex]⟩

/-- Tool-call handling only appends to the message list. -/
theorem handle_tool_calls_append (A : LLMAgent σ) (ms : List Message) (tcs : List ToolCall) :
    ∃ t, (A.handle_tool_calls ms tcs).1 = ms ++ t := by
  obtain ⟨t, ht⟩ := A.append_tool_results_append tcs (ms ++ [synthetic_assistant_message tcs])
  exact ⟨[synthetic_assistant_message tcs] ++ t, by simp [handle_tool_calls, ht]⟩

/-- The blocking loop only appends to the message list. -/
theorem respond_loop_append (A : LLMAgent σ) (tools : Option (List ToolSpec))
    (model : Option String) :
    ∀ (n : Nat) (s : σ) (ms : List Message),
      ∃ t, (A.respond_loop tools model n s ms).1 = ms ++ t := by
  intro n
  induction n with
  | zero => intro s ms; exact ⟨[], by simp [respond_loop]⟩
  | succ n ih =>
    intro s ms
    by_cases hb : A.should_execute_tools (A.provider.generate s ms tools model).1
    · rcases hh : A.handle_tool_calls ms
        ((A.provider.generate s ms tools model).1.tool_calls.getD []) with ⟨ms1, eo⟩
      have hpre : ∃ t, ms1 = ms ++ t := by
        have h0 := A.handle_tool_calls_append ms
          ((A.provider.generate s ms tools model).1.tool_calls.getD [])
        rwa [hh] at h0
      obtain ⟨t1, ht1⟩ := hpre
      cases eo with
      | none =>
        obtain ⟨t2, ht2⟩ := ih (A.provider.generate s ms tools model).2 ms1
        have hstep : (A.respond_loop tools model (n + 1) s ms).1
            = (A.respond_loop tools model n (A.provider.generate s ms tools model).2 ms1).1 := by
          simp [respond_loop, hb, hh]
        exact ⟨t1 ++ t2, by rw [hstep, ht2, ht1, List.append_assoc]⟩
      | some e =>
        exact ⟨t1, by simp [respond_loop, hb, hh, ht1]⟩
    · by_cases hc : truthyStr (A.provider.generate s ms tools model).1.content
      · exact ⟨[], by simp [respond_loop, hb, hc]⟩
      · exact ⟨[], by simp [respond_loop, hb, hc]⟩

/-- A blocking loop that does not propagate a tool exception leaves a
balanced block structure behind. -/
theorem respond_loop_balanced (A : LLMAgent σ) (tools : Option (List ToolSpec))
    (model : Option String) :
    ∀ (n : Nat) (s : σ) (ms : List Message) (c : String),
      (A.respond_loop tools model n s ms).2.2 = Except.ok c →
      ∃ t, (A.respond_loop tools model n s ms).1 = ms ++ t ∧ BalancedBlocks t := by
  intro n
  induction n with
  | zero => intro s ms c _; exact ⟨[], by simp [respond_loop], BalancedBlocks.nil⟩
  | succ n ih =>
    intro s ms c h
    by_cases hb : A.should_execute_tools (A.provider.generate s ms tools model).1
    · rcases hh : A.handle_tool_calls ms
        ((A.provider.generate s ms tools model).1.tool_calls.getD []) with ⟨ms1, eo⟩
      cases eo with
      | none =>
        have hms1 : ms1 = (ms ++ [synthetic_assistant_message
            ((A.provider.generate s ms tools model).1.tool_calls.getD [])])
            ++ ((A.provider.generate s ms tools model).1.tool_calls.getD []).map
              (fun tc => tool_message tc (A.blocking_result tc)) := by
          have h1 : (A.append_tool_results
              (ms ++ [synthetic_assistant_message
                ((A.provider.generate s ms tools model).1.tool_calls.getD [])])
              ((A.provider.generate s ms tools model).1.tool_calls.getD [])) = (ms1, Option.none) := hh
          have h2 := A.append_tool_results_eq_of_ok
            ((A.provider.generate s ms tools model).1.tool_calls.getD [])
            (ms ++ [synthetic_assistant_message
              ((A.provider.generate s ms tools model).1.tool_calls.getD [])])
            (by rw [h1])
          rw [h1] at h2
          exact h2
        have hrec : (A.respond_loop tools model n
            (A.provider.generate s ms tools model).2 ms1).2.2 = Except.ok c := by
          simpa [respond_loop, hb, hh] using h
        obtain ⟨t2, ht2, hbal2⟩ := ih (A.provider.generate s ms tools model).2 ms1 c hrec
        have hstep : (A.respond_loop tools model (n + 1) s ms).1
            = (A.respond_loop tools model n (A.provider.generate s ms tools model).2 ms1).1 := by
          simp [respond_loop, hb, hh]
        refine ⟨synthetic_assistant_message
            ((A.provider.generate s ms tools model).1.tool_calls.getD []) ::
            (((A.provider.generate s ms tools model).1.tool_calls.getD []).map
              (fun tc => tool_message tc (A.blocking_result tc)) ++ t2), ?_, ?_⟩
        · rw [hstep, ht2, hms1]
          simp [List.append_assoc]
        · exact BalancedBlocks.block _ (A.blocking_result) t2 hbal2
      | some e =>
        exfalso
        simp [respond_loop, hb, hh] at h
    · exact ⟨[], by
        by_cases hc : truthyStr (A.provider.generate s ms tools model).1.content
        · simp [respond_loop, hb, hc]
        · simp [respond_loop, hb, hc], BalancedBlocks.nil⟩

/-- The streaming per-call loop appends exactly one result message per
call, storing the serialized result or the tagged error string. -/
theorem process_stream_tool_calls_snd (A : LLMAgent σ) :
    ∀ (tcs : List ToolCall) (ms : List Message),
      (A.process_stream_tool_calls ms tcs).2
        = ms ++ tcs.map (fun tc => tool_message tc (A.stream_result tc)) := by
  intro tcs
  induction tcs with
  | nil => intro ms; simp [process_stream_tool_calls]
  | cons tc rest ih =>
    intro ms
    cases hex : A.execute_tool_call tc (A.parse_tool_args tc) with
    | ok r =>
      simp [process_stream_tool_calls, process_stream_tool_call, hex, ih,
        stream_result, tool_exec_result, List.append_assoc]
    | error e =>
      simp [process_stream_tool_calls, process_stream_tool_call, hex, ih,
        stream_result, tool_exec_result, List.append_assoc]

/-- A chunk pass that saw no tool calls appends nothing. -/
theorem process_chunks_no_tools (A : LLMAgent σ) :
    ∀ (chunks : List LLMResponse) (ms : List Message),
      (A.process_chunks ms chunks).2.2 = false →
      (A.process_chunks ms chunks).2.1 = ms := by
  intro chunks
  induction chunks with
  | nil => intro ms _; simp [process_chunks]
  | cons ch rest ih =>
    intro ms h
    by_cases hb : truthyCalls ch.tool_calls && A.provider.supports_tools
    · exfalso; simp [process_chunks, hb] at h
    · have h2 : (A.process_chunks ms rest).2.2 = false := by
        simpa [process_chunks, hb] using h
      simpa [process_chunks, hb] using ih ms h2

/-- A chunk pass that stopped at a tool-call chunk appended exactly one
balanced block. -/
theorem process_chunks_tools (A : LLMAgent σ) :
    ∀ (chunks : List LLMResponse) (ms : List Message),
      (A.process_chunks ms chunks).2.2 = true →
      ∃ tcs, (A.process_chunks ms chunks).2.1
        = ms ++ (synthetic_assistant_message tcs ::
            tcs.map (fun tc => tool_message tc (A.stream_result tc))) := by
  intro chunks
  induction chunks with
  | nil => intro ms h; exfalso; simp [process_chunks] at h
  | cons ch rest ih =>
    intro ms h
    by_cases hb : truthyCalls ch.tool_calls && A.provider.supports_tools
    · refine ⟨ch.tool_calls.getD [], ?_⟩
      simp [process_chunks, hb, A.process_stream_tool_calls_snd, List.append_assoc]
    · have h2 : (A.process_chunks ms rest).2.2 = true := by
        simpa [process_chunks, hb] using h
      obtain ⟨tcs, htcs⟩ := ih ms h2
      exact ⟨tcs, by simp [process_chunks, hb, htcs]⟩

/-- The streaming loop always leaves a balanced block structure behind,
handler failures included. -/
theorem stream_loop_balanced (A : LLMAgent σ) (tools : Option (List ToolSpec))
    (model : Option String) :
    ∀ (n : Nat) (s : σ) (ms : List Message),
      ∃ t, (A.stream_loop tools model n s ms).2.1 = ms ++ t ∧ BalancedBlocks t := by
  intro n
  induction n with
  | zero => intro s ms; exact ⟨[], by simp [stream_loop], BalancedBlocks.nil⟩
  | succ n ih =>
    intro s ms
    by_cases hb : (A.process_chunks ms (A.provider.generate_stream s ms tools model).1).2.2
    · obtain ⟨tcs, htcs⟩ := A.process_chunks_tools
        (A.provider.generate_stream s ms tools model).1 ms hb
      obtain ⟨t2, ht2, hbal2⟩ := ih (A.provider.generate_stream s ms tools model).2
        (A.process_chunks ms (A.provider.generate_stream s ms tools model).1).2.1
      have hstep : (A.stream_loop tools model (n + 1) s ms).2.1
          = (A.stream_loop tools model n (A.provider.generate_stream s ms tools model).2
              (A.process_chunks ms (A.provider.generate_stream s ms tools model).1).2.1).2.1 := by
        simp [stream_loop, hb]
      refine ⟨synthetic_assistant_message tcs ::
          (tcs.map (fun tc => tool_message tc (A.stream_result tc)) ++ t2), ?_, ?_⟩
      · rw [hstep, ht2, htcs]
        simp [List.append_assoc]
      · exact BalancedBlocks.block _ (A.stream_result) t2 hbal2
    · have hms := A.process_chunks_no_tools
        (A.provider.generate_stream s ms tools model).1 ms (by simpa using hb)
      exact ⟨[], by simp [stream_loop, hb, hms], BalancedBlocks.nil⟩

/-- Auxiliary: the result serialization of any non-string value goes
through `json.dumps` with the `str` fallback. -/
theorem serialize_not_str (A : LLMAgent σ) (v : PyVal) (hv : ∀ u, v ≠ PyVal.str u) :
    A.serialize_tool_result v
      = (match A.runtime.json_dumps v with
         | some j => j
         | Option.none => A.runtime.py_str v) := by
  cases v with
  | str u => exact absurd rfl (hv u)
  | none => rfl
  | bool b => rfl
  | int n => rfl
  | list xs => rfl
  | dict kvs => rfl
  | obj r => rfl

end LLMAgent

/-! ### The claims -/

/-- Claim C1: whenever the blocking controller handles a provider
response carrying tool calls and no handler raises, it appends exactly
one synthetic assistant message (content null, carrying exactly the
returned tool calls) followed by exactly one `role=tool` message per
tool call, in the order the provider returned them, each with the
matching `tool_call_id` and `name` (built into `tool_message`). -/
theorem claim_C1_tool_call_handling {σ : Type} (A : LLMAgent σ)
    (ms : List Message) (tcs : List ToolCall)
    (h : (A.handle_tool_calls ms tcs).2 = Option.none) :
    (A.handle_tool_calls ms tcs).1
      = ms ++ (LLMAgent.synthetic_assistant_message tcs ::
          tcs.map (fun tc => LLMAgent.tool_message tc (A.blocking_result tc))) := by
  have h2 := A.append_tool_results_eq_of_ok tcs
    (ms ++ [LLMAgent.synthetic_assistant_message tcs]) h
  simpa [LLMAgent.handle_tool_calls, List.append_assoc] using h2

/-- Witness for C1 at a concrete agent and a single no-op tool call. -/
theorem claim_C1_witness :
    (witAgent.handle_tool_calls hist0 [noopCall]).1
      = hist0 ++ (LLMAgent.synthetic_assistant_message [noopCall] ::
          [noopCall].map (fun tc => LLMAgent.tool_message tc (witAgent.blocking_result tc))) :=
  claim_C1_tool_call_handling witAgent hist0 [noopCall] rfl

/-- Claim C2: against a provider that always returns one tool call for a
registered tool whose execution succeeds, `respond` returns `""` after
exactly `max_iterations` provider `generate` calls (the provider state
is the call counter), never more, and exceeding the limit is not an
error. -/
theorem claim_C2_iteration_bound (A : LLMAgent Nat) (tc : ToolCall) (r : String)
    (hsup : A.provider.supports_tools = true)
    (hgen : ∀ (s : Nat) (ms : List Message) (t : Option (List ToolSpec)) (m : Option String),
      (A.provider.generate s ms t m).1.tool_calls = some [tc]
        ∧ (A.provider.generate s ms t m).2 = s + 1)
    (hexec : A.tool_exec_result tc = Except.ok r) :
    ∀ (s : Nat) (ms : List Message) (model : Option String),
      (A.respond s ms model).2.1 = s + A.max_iterations
        ∧ (A.respond s ms model).2.2 = Except.ok "" := by
  have hexec2 : A.execute_tool_call tc (A.parse_tool_args tc) = Except.ok r := hexec
  suffices hl : ∀ (n : Nat) (s : Nat) (ms : List Message) (model : Option String)
      (tools : Option (List ToolSpec)),
      (A.respond_loop tools model n s ms).2.1 = s + n
        ∧ (A.respond_loop tools model n s ms).2.2 = Except.ok "" by
    intro s ms model
    exact ⟨(hl A.max_iterations s ms model A.declared_tools).1,
      (hl A.max_iterations s ms model A.declared_tools).2⟩
  intro n
  induction n with
  | zero => intro s ms model tools; simp [LLMAgent.respond_loop]
  | succ n ih =>
    intro s ms model tools
    obtain ⟨h1, h2⟩ := hgen s ms tools model
    have hbranch : A.should_execute_tools (A.provider.generate s ms tools model).1 = true := by
      simp [LLMAgent.should_execute_tools, hsup, truthyCalls, h1]
    have hhandle : A.handle_tool_calls ms
        ((A.provider.generate s ms tools model).1.tool_calls.getD [])
        = ((ms ++ [LLMAgent.synthetic_assistant_message [tc]]) ++ [LLMAgent.tool_message tc r],
           Option.none) := by
      simp [h1, LLMAgent.handle_tool_calls, LLMAgent.append_tool_results, hexec2]
    have hstep : A.respond_loop tools model (n + 1) s ms
        = A.respond_loop tools model n (s + 1)
            ((ms ++ [LLMAgent.synthetic_assistant_message [tc]]) ++ [LLMAgent.tool_message tc r]) := by
      simp [LLMAgent.respond_loop, hbranch, hhandle, h2]
    rw [hstep]
    refine ⟨(ih (s + 1) _ model tools).1.trans (by omega), (ih (s + 1) _ model tools).2⟩

/-- Witness for C2: `max_iterations = 3`, provider counter ends at 3 and
the answer is the empty string. -/
theorem claim_C2_witness :
    (wit2Agent.respond 0 hist0 Option.none).2.1 = 0 + wit2Agent.max_iterations
      ∧ (wit2Agent.respond 0 hist0 Option.none).2.2 = Except.ok "" :=
  claim_C2_iteration_bound wit2Agent noopCall ""
    rfl (fun _ _ _ _ => ⟨rfl, rfl⟩) rfl 0 hist0 Option.none

/-- Claim C3: a raised tool-handler exception is fatal in blocking mode —
`respond` propagates the error and leaves history with only the messages
appended before the failure (here: the synthetic assistant turn) — while
in streaming mode the same failing call is recovered locally: a
`role=tool` message with content `"Error: <message>"` is appended, a
`tool_call_error` event carrying the stringified error is emitted, and
the per-call loop continues with the remaining calls. -/
theorem claim_C3_handler_exception {σ : Type} (A : LLMAgent σ)
    (s0 s1 : σ) (resp : LLMResponse) (ms : List Message) (tc : ToolCall)
    (rest : List ToolCall) (e : String) (model : Option String) (n : Nat)
    (hexec : A.tool_exec_result tc = Except.error e)
    (hsup : A.provider.supports_tools = true)
    (hmax : A.max_iterations = n + 1)
    (hgen : A.provider.generate s0 ms A.declared_tools model = (resp, s1))
    (htc : resp.tool_calls = some [tc]) :
    A.respond s0 ms model
      = (ms ++ [LLMAgent.synthetic_assistant_message [tc]], s1, Except.error e)
    ∧ A.process_stream_tool_call ms tc
      = ([toolCallStartEvent tc.function.name (A.parse_tool_args tc),
          toolCallErrorEvent tc.function.name e],
         ms ++ [LLMAgent.tool_message tc ("Error: " ++ e)])
    ∧ A.process_stream_tool_calls ms (tc :: rest)
      = ([toolCallStartEvent tc.function.name (A.parse_tool_args tc),
          toolCallErrorEvent tc.function.name e]
          ++ (A.process_stream_tool_calls
              (ms ++ [LLMAgent.tool_message tc ("Error: " ++ e)]) rest).1,
         (A.process_stream_tool_calls
             (ms ++ [LLMAgent.tool_message tc ("Error: " ++ e)]) rest).2) := by
  have hexec2 : A.execute_tool_call tc (A.parse_tool_args tc) = Except.error e := hexec
  refine ⟨?_, ?_, ?_⟩
  · have hbranch : A.should_execute_tools resp = true := by
      simp [LLMAgent.should_execute_tools, hsup, truthyCalls, htc]
    simp [LLMAgent.respond, hmax, LLMAgent.respond_loop, hgen, hbranch, htc,
      LLMAgent.handle_tool_calls, LLMAgent.append_tool_results, hexec2]
  · simp [LLMAgent.process_stream_tool_call, hexec2]
  · simp [LLMAgent.process_stream_tool_calls, LLMAgent.process_stream_tool_call, hexec2]

/-- Witness for C3: a registered tool whose handler always raises. -/
theorem claim_C3_witness :
    boomAgent.respond 0 hist0 Option.none
      = (hist0 ++ [LLMAgent.synthetic_assistant_message [boomCall]], 1,
         Except.error "boom failed")
    ∧ boomAgent.process_stream_tool_call hist0 boomCall
      = ([toolCallStartEvent "boom" (PyVal.dict []),
          toolCallErrorEvent "boom" "boom failed"],
         hist0 ++ [LLMAgent.tool_message boomCall ("Error: " ++ "boom failed")]) := by
  have h := claim_C3_handler_exception boomAgent 0 1
    { content := Option.none, tool_calls := some [boomCall] } hist0 boomCall []
    "boom failed" Option.none 0 rfl rfl rfl rfl rfl
  exact ⟨h.1, h.2.1⟩

/-- Claim C4: argument decoding returns a structured map payload as-is,
parses a string payload as JSON, and yields the empty map on parse
failure and on null/empty input; it is a total function (never raises),
and a call with arguments `"not valid json"` reaches the handler with
the empty argument map and succeeds. -/
theorem claim_C4_argument_decoding {σ : Type} (A : LLMAgent σ)
    (i1 i2 i3 i4 i5 nm : String) (kvs : List (String × PyVal))
    (s1 : String) (v : PyVal) (s2 : String) (t : AgentTool) (r : PyVal)
    (h2a : s1 ≠ "") (h2b : A.runtime.json_loads s1 = some v)
    (h3a : s2 ≠ "") (h3b : A.runtime.json_loads s2 = Option.none)
    (h4 : A.runtime.json_loads "\x7b\x7d" = some (PyVal.dict []))
    (h5 : A.find_tool nm = (some t, Option.none))
    (h6 : t.handler (PyVal.dict []) = Except.ok r) :
    A.parse_tool_args { id := i1, function := { name := nm, arguments := RawArguments.dict kvs } }
        = PyVal.dict kvs
    ∧ A.parse_tool_args { id := i2, function := { name := nm, arguments := RawArguments.str s1 } }
        = v
    ∧ A.parse_tool_args { id := i3, function := { name := nm, arguments := RawArguments.str s2 } }
        = PyVal.dict []
    ∧ A.parse_tool_args { id := i4, function := { name := nm, arguments := RawArguments.none } }
        = PyVal.dict []
    ∧ A.parse_tool_args { id := i5, function := { name := nm, arguments := RawArguments.str "" } }
        = PyVal.dict []
    ∧ A.tool_exec_result { id := i3, function := { name := nm, arguments := RawArguments.str s2 } }
        = Except.ok (A.serialize_tool_result r) := by
  have hp3 : A.parse_tool_args
      { id := i3, function := { name := nm, arguments := RawArguments.str s2 } }
      = PyVal.dict [] := by
    simp [LLMAgent.parse_tool_args, h3a, h3b]
  refine ⟨rfl, ?_, hp3, ?_, ?_, ?_⟩
  · simp [LLMAgent.parse_tool_args, h2a, h2b]
  · simp [LLMAgent.parse_tool_args, h4]
  · simp [LLMAgent.parse_tool_args, h4]
  · simp [LLMAgent.tool_exec_result, LLMAgent.execute_tool_call, hp3, h5, h6]

/-- Witness for C4 at a concrete runtime whose JSON parser rejects
`"not valid json"` and accepts `"42"`. -/
theorem claim_C4_witness :
    witAgent.parse_tool_args
        { id := "a", function := { name := "noop", arguments := RawArguments.dict [("k", PyVal.int 1)] } }
        = PyVal.dict [("k", PyVal.int 1)]
    ∧ witAgent.parse_tool_args
        { id := "b", function := { name := "noop", arguments := RawArguments.str "42" } }
        = PyVal.int 42
    ∧ witAgent.parse_tool_args
        { id := "c", function := { name := "noop", arguments := RawArguments.str "not valid json" } }
        = PyVal.dict []
    ∧ witAgent.parse_tool_args
        { id := "d", function := { name := "noop", arguments := RawArguments.none } }
        = PyVal.dict []
    ∧ witAgent.parse_tool_args
        { id := "e", function := { name := "noop", arguments := RawArguments.str "" } }
        = PyVal.dict []
    ∧ witAgent.tool_exec_result
        { id := "c", function := { name := "noop", arguments := RawArguments.str "not valid json" } }
        = Except.ok (witAgent.serialize_tool_result (PyVal.str "")) :=
  claim_C4_argument_decoding witAgent "a" "b" "c" "d" "e" "noop"
    [("k", PyVal.int 1)] "42" (PyVal.int 42) "not valid json" noopTool (PyVal.str "")
    (by decide) rfl (by decide) rfl rfl rfl rfl

/-- Claim C5: when the provider does not support streaming,
`respond_stream` yields exactly one content event whose payload equals
what `respond` returns for the same history, with the same final history
and provider state — no partial delivery. -/
theorem claim_C5_nonstreaming_equivalence {σ : Type} (A : LLMAgent σ)
    (s s1 : σ) (ms ms1 : List Message) (model : Option String) (c : String)
    (hstream : A.provider.supports_streaming = false)
    (hresp : A.respond s ms model = (ms1, s1, Except.ok c)) :
    A.respond_stream s ms model = ([contentEvent c], ms1, s1, Except.ok ()) := by
  simp [LLMAgent.respond_stream, hstream, hresp]

/-- Witness for C5 with a non-streaming provider answering "hello". -/
theorem claim_C5_witness :
    plainAgent.respond_stream 0 hist0 Option.none
      = ([contentEvent "hello"], hist0, 1, Except.ok ()) :=
  claim_C5_nonstreaming_equivalence plainAgent 0 1 hist0 hist0 Option.none "hello" rfl rfl

/-- Claim C6: `respond` never removes or reorders pre-existing messages:
the final history is the initial history followed by appended messages
only. -/
theorem claim_C6_append_only {σ : Type} (A : LLMAgent σ) (s : σ)
    (ms : List Message) (model : Option String) :
    ∃ t, (A.respond s ms model).1 = ms ++ t :=
  A.respond_loop_append A.declared_tools model A.max_iterations s ms

/-- Claim C7: a tool call naming a tool that is neither locally
registered nor remotely discovered is swallowed: its execution yields
`Except.ok ""` (no propagated signal), the appended `role=tool` message
has empty-string content, and the turn proceeds to the next provider
call, so a subsequent provider answer is returned by `respond`. -/
theorem claim_C7_unknown_tool_swallowed {σ : Type} (A : LLMAgent σ)
    (s0 s1 s2 : σ) (resp1 resp2 : LLMResponse) (ms : List Message)
    (tc : ToolCall) (model : Option String) (n : Nat) (c : String)
    (hfind : A.find_tool tc.function.name = (Option.none, Option.none))
    (hsup : A.provider.supports_tools = true)
    (hmax : A.max_iterations = n + 2)
    (hgen1 : A.provider.generate s0 ms A.declared_tools model = (resp1, s1))
    (h1 : resp1.tool_calls = some [tc])
    (hgen2 : A.provider.generate s1
        (ms ++ [LLMAgent.synthetic_assistant_message [tc], LLMAgent.tool_message tc ""])
        A.declared_tools model = (resp2, s2))
    (h2 : resp2.tool_calls = Option.none)
    (h2c : resp2.content = some c) (hc : c ≠ "") :
    A.tool_exec_result tc = Except.ok ""
    ∧ A.respond s0 ms model
      = (ms ++ [LLMAgent.synthetic_assistant_message [tc], LLMAgent.tool_message tc ""],
         s2, Except.ok c) := by
  have hexec : A.execute_tool_call tc (A.parse_tool_args tc) = Except.ok "" := by
    simp [LLMAgent.execute_tool_call, hfind]
  refine ⟨hexec, ?_⟩
  have hbranch1 : A.should_execute_tools resp1 = true := by
    simp [LLMAgent.should_execute_tools, hsup, truthyCalls, h1]
  have hbranch2 : A.should_execute_tools resp2 = false := by
    simp [LLMAgent.should_execute_tools, truthyCalls, h2]
  have hc2 : truthyStr (some c) = true := by
    simp [truthyStr, hc]
  simp [LLMAgent.respond, hmax, LLMAgent.respond_loop, hgen1, hbranch1, h1,
    LLMAgent.handle_tool_calls, LLMAgent.append_tool_results, hexec,
    hgen2, hbranch2, hc2, h2c, orEmpty]

/-- Witness for C7: unknown tool `"ghost"`, then `"recovered"`. -/
theorem claim_C7_witness :
    ghostAgent.tool_exec_result ghostCall = Except.ok ""
    ∧ ghostAgent.respond 0 hist0 Option.none
      = (hist0 ++ [LLMAgent.synthetic_assistant_message [ghostCall],
          LLMAgent.tool_message ghostCall ""], 2, Except.ok "recovered") :=
  claim_C7_unknown_tool_swallowed ghostAgent 0 1 2
    { content := Option.none, tool_calls := some [ghostCall] }
    { content := some "recovered", tool_calls := Option.none }
    hist0 ghostCall Option.none 0 "recovered"
    rfl rfl rfl rfl rfl rfl rfl rfl (by decide)

/-- Claim C8: a provider response with no tool calls and falsy content
triggers exactly one recovery `generate` call that declares no tools
(`tools = None`), and `respond` returns the retry content or the empty
string, appending nothing. -/
theorem claim_C8_empty_content_retry {σ : Type} (A : LLMAgent σ)
    (s0 s1 s2 : σ) (resp1 resp2 : LLMResponse) (ms : List Message)
    (model : Option String) (n : Nat)
    (hmax : A.max_iterations = n + 1)
    (hgen1 : A.provider.generate s0 ms A.declared_tools model = (resp1, s1))
    (h1 : resp1.tool_calls = Option.none)
    (h1c : truthyStr resp1.content = false)
    (hgen2 : A.provider.generate s1 ms Option.none model = (resp2, s2)) :
    A.respond s0 ms model = (ms, s2, Except.ok (orEmpty resp2.content)) := by
  have hbranch : A.should_execute_tools resp1 = false := by
    simp [LLMAgent.should_execute_tools, truthyCalls, h1]
  simp [LLMAgent.respond, hmax, LLMAgent.respond_loop, hgen1, hbranch, h1c, hgen2]

/-- Witness for C8: empty content first, `"after retry"` on the retry;
the provider call counter ends at 2. -/
theorem claim_C8_witness :
    emptyThenAgent.respond 0 hist0 Option.none = (hist0, 2, Except.ok "after retry") :=
  claim_C8_empty_content_retry emptyThenAgent 0 1 2
    { content := some "", tool_calls := Option.none }
    { content := some "after retry", tool_calls := Option.none }
    hist0 Option.none 0 rfl rfl rfl rfl rfl

/-- Counterexample to claim C9 as stated: a turn that ends on a
propagated tool-handler error DOES leave a dangling assistant tool-call
message — `respond` appends the synthetic assistant message carrying
`boomCall` and then propagates the handler exception, so the final
history contains an assistant tool-call message and no `role=tool`
message at all. -/
theorem claim_C9_counterexample :
    (boomAgent.respond 0 hist0 Option.none).1
      = hist0 ++ [LLMAgent.synthetic_assistant_message [boomCall]]
    ∧ (boomAgent.respond 0 hist0 Option.none).1.filter (fun m => m.role == "tool") = []
    ∧ (boomAgent.respond 0 hist0 Option.none).2.2 = Except.error "boom failed" :=
  ⟨rfl, rfl, rfl⟩

/-- Claim C9 (amended): a turn that ends normally leaves the shared
history consistent — a blocking `respond` that returns without a
propagated error, and any streaming turn with a streaming-capable
provider (tool-handler failures included), leave the initial history
followed by balanced blocks: each appended assistant tool-call message
is followed by exactly one matching `role=tool` message per tool call,
in order. (A propagated handler error in blocking mode does leave a
dangling assistant tool-call message — see the counterexample — and the
code has no cancellation handling.) -/
theorem claim_C9_balanced_on_normal_end {σ : Type} (A : LLMAgent σ) (s : σ)
    (ms : List Message) (model : Option String) (c : String) :
    ((A.respond s ms model).2.2 = Except.ok c →
      ∃ t, (A.respond s ms model).1 = ms ++ t ∧ BalancedBlocks t)
    ∧ (A.provider.supports_streaming = true →
      ∃ t, (A.respond_stream s ms model).2.1 = ms ++ t ∧ BalancedBlocks t) := by
  constructor
  · intro h
    exact A.respond_loop_balanced A.declared_tools model A.max_iterations s ms c h
  · intro hs
    have h := A.stream_loop_balanced A.declared_tools model A.max_iterations s ms
    simpa [LLMAgent.respond_stream, hs] using h

/-- Witness for the amended C9 at a streaming-capable agent whose first
stream carries a tool call. -/
theorem claim_C9_witness :
    (∃ t, (streamAgent.respond 0 hist0 Option.none).1 = hist0 ++ t ∧ BalancedBlocks t)
    ∧ (∃ t, (streamAgent.respond_stream 0 hist0 Option.none).2.1 = hist0 ++ t
        ∧ BalancedBlocks t) := by
  have h := claim_C9_balanced_on_normal_end streamAgent 0 hist0 Option.none "done"
  exact ⟨h.1 rfl, h.2 rfl⟩

/-- Claim C10: result serialization returns a string value unchanged,
returns the JSON serialization of any non-string value when `json.dumps`
succeeds, and falls back to the value's default string representation
(`str`) when serialization fails — so stored tool-result content is
always a string (the return type of `serialize_tool_result`). -/
theorem claim_C10_result_serialization {σ : Type} (A : LLMAgent σ)
    (s : String) (v w : PyVal) (j : String)
    (hv : ∀ u, v ≠ PyVal.str u)
    (hj : A.runtime.json_dumps v = some j)
    (hw : ∀ u, w ≠ PyVal.str u)
    (hwn : A.runtime.json_dumps w = Option.none) :
    A.serialize_tool_result (PyVal.str s) = s
    ∧ A.serialize_tool_result v = j
    ∧ A.serialize_tool_result w = A.runtime.py_str w := by
  refine ⟨rfl, ?_, ?_⟩
  · rw [LLMAgent.serialize_not_str A v hv, hj]
  · rw [LLMAgent.serialize_not_str A w hw, hwn]

/-- Witness for C10: an integer serializes through `json.dumps`, an
opaque object falls back to `str`. -/
theorem claim_C10_witness :
    witAgent.serialize_tool_result (PyVal.str "plain") = "plain"
    ∧ witAgent.serialize_tool_result (PyVal.int 42) = "42"
    ∧ witAgent.serialize_tool_result (PyVal.obj "Widget")
        = witAgent.runtime.py_str (PyVal.obj "Widget") :=
  claim_C10_result_serialization witAgent "plain" (PyVal.int 42) (PyVal.obj "Widget") "42"
    (fun _ h => PyVal.noConfusion h) rfl (fun _ h => PyVal.noConfusion h) rfl

end RagOps
